import Mathlib

/-!
# PostHub backend — verification of the slug generator and the
# visibility / authorization layer

A shallow embedding of the PostHub backend (TypeScript / Express /
Drizzle ORM) sufficient to settle the specification's claims about

* `generateSlug` (`src/utils/slugify.ts`),
* the entity controllers (`postController`, `commentController`,
  `likeController`, `categoryController`, `AuthService`) and the
  account-status / soft-delete / ownership checks they perform.

The relational store is embedded as explicit lists of rows; each
controller is a pure function from the store (and its arguments) to a
response, paired with the updated store when the operation writes.
-/

namespace PostHub

/-! ## Character classes of the JavaScript regexes

`generateSlug` uses the regexes `[^\w\s-]`, `\s+` and `-+`.  `\w` is
`[A-Za-z0-9_]`; `\s` is the ECMAScript WhiteSpace ∪ LineTerminator set,
which is also exactly the set trimmed by `String.prototype.trim`.
Characters are compared through their code points (`Char.toNat`). -/

/-- ECMAScript `\w`: `[A-Za-z0-9_]`. -/
def isWordChar (c : Char) : Bool :=
  (65 ≤ c.toNat && c.toNat ≤ 90) || (97 ≤ c.toNat && c.toNat ≤ 122) ||
  (48 ≤ c.toNat && c.toNat ≤ 57) || c.toNat == 95

/-- ECMAScript `\s` (WhiteSpace ∪ LineTerminator), the same set that
`String.prototype.trim` removes. -/
def isSpaceChar (c : Char) : Bool :=
  c.toNat == 9 || c.toNat == 10 || c.toNat == 11 || c.toNat == 12 ||
  c.toNat == 13 || c.toNat == 32 || c.toNat == 160 || c.toNat == 5760 ||
  (8192 ≤ c.toNat && c.toNat ≤ 8202) || c.toNat == 8232 ||
  c.toNat == 8233 || c.toNat == 8239 || c.toNat == 8287 ||
  c.toNat == 12288 || c.toNat == 65279

/-- `String.prototype.toLowerCase`, per character.  Only the ASCII
range is case-mapped; this matches the JavaScript behaviour on every
character that can survive the `[^\w\s-]` strip (which keeps ASCII
word characters only). -/
def lowerChar (c : Char) : Char :=
  if 65 ≤ c.toNat && c.toNat ≤ 90 then Char.ofNat (c.toNat + 32) else c

/-- Global replacement of every maximal run of characters satisfying
`p` by the single character `r` (the `replace` with a `X+` regex).
The boolean argument records whether the previous character was part
of a run. -/
def collapseRunsAux (p : Char → Bool) (r : Char) : Bool → List Char → List Char
  | _, [] => []
  | inRun, c :: cs =>
    if p c then
      if inRun then collapseRunsAux p r true cs
      else r :: collapseRunsAux p r true cs
    else c :: collapseRunsAux p r false cs

/-- Run-collapsing replacement over a character list. -/
def collapseRuns (p : Char → Bool) (r : Char) (l : List Char) : List Char :=
  collapseRunsAux p r false l

/-- `String.prototype.trim`: strip `isSpaceChar` characters from both
ends. -/
def trimList (l : List Char) : List Char :=
  ((l.dropWhile isSpaceChar).reverse.dropWhile isSpaceChar).reverse

/-- The slug base computation of `generateSlug`: lower-case the title,
strip every character outside `\w`, `\s` and hyphen, replace each
whitespace run by a single `"-"`, replace each hyphen run by a single
`"-"`, then `trim()`.  (Note `trim()` runs last, after whitespace has
already been turned into hyphens.) -/
def slugify (title : String) : String :=
  ⟨trimList (collapseRuns (fun c => c == '-') '-'
    (collapseRuns isSpaceChar '-'
      ((title.data.map lowerChar).filter
        (fun c => isWordChar c || isSpaceChar c || c == '-'))))⟩

/-- The collision loop of `generateSlug`:

```
let uniqueSlug = slug; let counter = 1;
while (existingSlugs.includes(uniqueSlug)) {
  uniqueSlug = `${slug}-${counter++}`;
}
return uniqueSlug;
```

The JavaScript loop always terminates because the candidates
`slug`, `slug-1`, `slug-2`, … are pairwise distinct and `existingSlugs`
is finite; the embedding makes this explicit with a fuel argument that
`generateSlug` instantiates with `existingSlugs.length + 1`, which is
proved sufficient below (`generateSlug_not_mem`). -/
def slugLoop (slug : String) (existingSlugs : List String) :
    String → Nat → Nat → String
  | uniqueSlug, _, 0 => uniqueSlug
  | uniqueSlug, counter, fuel + 1 =>
    if uniqueSlug ∈ existingSlugs then
      slugLoop slug existingSlugs (slug ++ "-" ++ Nat.repr counter)
        (counter + 1) fuel
    else uniqueSlug

/-- `generateSlug(title, existingSlugs)` from `src/utils/slugify.ts`. -/
def generateSlug (title : String) (existingSlugs : List String) : String :=
  let slug := slugify title
  slugLoop slug existingSlugs slug 1 (existingSlugs.length + 1)

/-! ## Decimal rendering: `Nat.repr` is injective and digits-only

The collision loop builds candidates with the template
`slug ++ "-" ++ Nat.repr counter`; the correctness of the loop needs
that distinct counters give distinct candidates, hence an injectivity
result for `Nat.repr`, proved here from `Nat.toDigitsCore`. -/

/-- The character list behind `Nat.repr n`. -/
def reprDigits (n : Nat) : List Char := Nat.toDigitsCore 10 (n + 1) n []

/-- The candidate produced for a given counter value. -/
def numbered (slug : String) (i : Nat) : String := slug ++ "-" ++ Nat.repr i

/-- The sequence of candidates still to be tried when the loop state is
`(uniqueSlug, counter)`. -/
def candAux (slug uniqueSlug : String) (counter : Nat) : Nat → String
  | 0 => uniqueSlug
  | k + 1 => numbered slug (counter + k)

/-- A lowercase word character (`[a-z0-9_]`) or a hyphen — the
character set the specification promises for generated slugs. -/
def SlugChar (c : Char) : Prop :=
  (97 ≤ c.toNat ∧ c.toNat ≤ 122) ∨ (48 ≤ c.toNat ∧ c.toNat ≤ 57) ∨
  c.toNat = 95 ∨ c.toNat = 45

instance (c : Char) : Decidable (SlugChar c) := by
  unfold SlugChar
  infer_instance

/-- Computable check that a character list has no two adjacent
hyphens. -/
def noDoubleHyphenB : List Char → Bool
  | [] => true
  | [_] => true
  | a :: b :: rest => !(a == '-' && b == '-') && noDoubleHyphenB (b :: rest)

/-! ## The data model (src/db/schema.ts)

Rows carry the fields the claims depend on; audit timestamps
(createdAt / updatedAt) are omitted, soft deletion keeps its
deletedAt marker (an abstract instant, modelled as Nat).  The
bigserial keys of comments and categories are modelled by explicit
next-id counters in the store; uuid keys are strings. -/

inductive AccountStatus
  | active
  | suspended
  | deleted
deriving DecidableEq, Repr

inductive UserRole
  | user
  | admin
deriving DecidableEq, Repr

structure User where
  id : String
  username : String
  email : String
  hashedPassword : String
  status : AccountStatus
  role : UserRole
  deletedAt : Option Nat
deriving DecidableEq, Repr

structure Post where
  id : String
  userId : String
  categoryId : Option Nat
  title : String
  slug : String
  content : String
  excerpt : Option String
  isPublished : Bool
  publishedAt : Option Nat
deriving DecidableEq, Repr

structure Comment where
  id : Nat
  userId : String
  postId : String
  content : String
deriving DecidableEq, Repr

structure Like where
  userId : String
  postId : String
deriving DecidableEq, Repr

structure Category where
  id : Nat
  name : String
  slug : String
  description : Option String
deriving DecidableEq, Repr

/-- The relational store. -/
structure DB where
  users : List User
  posts : List Post
  comments : List Comment
  likes : List Like
  categories : List Category
  nextCommentId : Nat
  nextCategoryId : Nat
deriving DecidableEq, Repr

/-- A controller response: HTTP status code, the status / message
strings of the JSON body, and the optional data payload. -/
structure Resp (α : Type) where
  statusCode : Nat
  status : String
  message : String
  data : Option α
deriving DecidableEq, Repr

def ok {α : Type} (code : Nat) (message : String) (d : α) : Resp α :=
  ⟨code, "success", message, some d⟩

def okNoData {α : Type} (code : Nat) (message : String) : Resp α :=
  ⟨code, "success", message, none⟩

def err {α : Type} (code : Nat) (message : String) : Resp α :=
  ⟨code, "error", message, none⟩

/-- The active-account condition used across the controllers:
status is active and the soft-delete marker is null. -/
def isActive (u : User) : Prop :=
  u.status = AccountStatus.active ∧ u.deletedAt = none

instance (u : User) : Decidable (isActive u) := by
  unfold isActive
  infer_instance

/-- findFirst with eq(id), eq(status, "active"),
isNull(deletedAt) — the acting-user check of createPost, addComment,
likePost, unlikePost, … -/
def findActiveUser (db : DB) (uid : String) : Option User :=
  db.users.find? (fun u => decide (u.id = uid ∧ isActive u))

/-- verifyAdmin (src/utils/auth-utils.ts): findFirst with eq(id),
eq(role, "admin"), eq(status, "active") — note there is no deletedAt
condition.  The source throws when no row matches; the embedding
returns whether a row matched and each caller maps the throw to its
catch branch. -/
def verifyAdminOk (db : DB) (userId : String) : Bool :=
  (db.users.find? (fun u =>
    decide (u.id = userId ∧ u.role = UserRole.admin ∧
      u.status = AccountStatus.active))).isSome

/-! ## postController (src/controllers/post-controller.ts) -/

/-- postController.getPostByIdOrSlug.  The requester is `none` when
anonymous.  The inner join with an active, non-soft-deleted user row
is the Drizzle join of the source; `await verifyAdmin(...)` throws for
every requester that is not an active admin, and the enclosing
try/catch turns that throw into the 500 "Failed to fetch post"
response. -/
def getPostByIdOrSlug (db : DB) (identifier : String)
    (requestingUserId : Option String) : Resp Post :=
  let isUuid := identifier.length = 36
  let rows := db.posts.filterMap (fun p =>
    if (if isUuid then p.id = identifier else p.slug = identifier) then
      (db.users.find? (fun u => decide (u.id = p.userId ∧ isActive u))).map
        (fun u => (p, u))
    else none)
  match rows.head? with
  | none => err 404 "Post not found"
  | some (post, _) =>
    let isOwner := requestingUserId = some post.userId
    match requestingUserId with
    | some rid =>
      if verifyAdminOk db rid then
        -- isAdminUser = true, so the unpublished-post guard cannot fire
        ok 200 "Post fetched successfully" post
      else
        -- verifyAdmin threw inside the try block: caught as 500
        err 500 "Failed to fetch post"
    | none =>
      if ¬(post.isPublished = true) ∧ ¬isOwner then
        err 403 "Unauthorized to view this post"
      else ok 200 "Post fetched successfully" post

structure CreatePostData where
  title : String
  content : String
  excerpt : Option String
  isPublished : Option Bool
  categoryId : Option Nat
deriving DecidableEq, Repr

/-- postController.createPost.  The generated uuid and the clock are
explicit parameters. -/
def createPost (db : DB) (userId : String) (data : CreatePostData)
    (freshId : String) (now : Nat) : Resp Post × DB :=
  match findActiveUser db userId with
  | none => (err 403 "User not found or account inactive", db)
  | some _ =>
    -- `if (data.categoryId)` is a truthiness test: 0 and undefined skip it
    if data.categoryId.getD 0 ≠ 0 ∧
        (db.categories.find? (fun c =>
          decide (c.id = data.categoryId.getD 0))).isNone then
      (err 404 "Category not found", db)
    else
      let existingSlugs := db.posts.map Post.slug
      let slug := generateSlug data.title existingSlugs
      let newPost : Post := {
        id := freshId, userId := userId, categoryId := data.categoryId,
        title := data.title, slug := slug, content := data.content,
        excerpt := data.excerpt,
        isPublished := data.isPublished.getD true,
        publishedAt := match data.isPublished with
          | some true => some now
          | _ => none }
      (ok 201 "Post created successfully" newPost,
       { db with posts := db.posts ++ [newPost] })

structure PostUpdates where
  title : Option String
  content : Option String
  excerpt : Option String
  isPublished : Option Bool
  categoryId : Option Nat
deriving DecidableEq, Repr

/-- postController.updatePost. -/
def updatePost (db : DB) (postId : String) (userId : String)
    (updates : PostUpdates) (now : Nat) : Resp Post × DB :=
  match db.posts.find? (fun p => decide (p.id = postId)) with
  | none => (err 403 "Post not found or user account inactive", db)
  | some post =>
    match db.users.find? (fun u => decide (u.id = post.userId)) with
    | none =>
      -- dead branch: posts reference users by foreign key, so the joined
      -- row exists; a null dereference would surface through the catch
      (err 500 "Failed to update post", db)
    | some owner =>
      if ¬(owner.status = AccountStatus.active) ∨ ¬(owner.deletedAt = none) then
        (err 403 "Post not found or user account inactive", db)
      else if ¬(post.userId = userId) then
        (err 403 "Unauthorized to update this post", db)
      else
        -- `if (updates.title)` is a truthiness test: "" does not regenerate
        let newSlug : Option String := match updates.title with
          | some t =>
            if t ≠ "" then
              some (generateSlug t
                ((db.posts.filter (fun p => decide (¬(p.id = postId)))).map
                  Post.slug))
            else none
          | none => none
        let post' : Post := { post with
          title := (updates.title).getD post.title,
          content := (updates.content).getD post.content,
          excerpt := match updates.excerpt with
            | some e => some e
            | none => post.excerpt,
          isPublished := (updates.isPublished).getD post.isPublished,
          categoryId := match updates.categoryId with
            | some c => some c
            | none => post.categoryId,
          slug := newSlug.getD post.slug,
          publishedAt := match updates.isPublished with
            | some true => some (post.publishedAt.getD now)
            | some false => none
            | none => post.publishedAt }
        (ok 200 "Post updated successfully" post',
         { db with posts := db.posts.map (fun p =>
             if p.id = postId then post' else p) })

/-- postController.deletePost. -/
def deletePost (db : DB) (postId : String) (userId : String) :
    Resp Unit × DB :=
  match db.posts.find? (fun p => decide (p.id = postId)) with
  | none => (err 403 "Post not found or user account inactive", db)
  | some post =>
    match db.users.find? (fun u => decide (u.id = post.userId)) with
    | none => (err 500 "Failed to delete post", db)
    | some owner =>
      if ¬(owner.status = AccountStatus.active) ∨ ¬(owner.deletedAt = none) then
        (err 403 "Post not found or user account inactive", db)
      else if ¬(post.userId = userId) then
        (err 403 "Unauthorized to delete this post", db)
      else
        (okNoData 200 "Post deleted successfully",
         { db with posts := db.posts.filter (fun p =>
             decide (¬(p.id = postId))) })

/-! ## commentController (src/controllers/comment-controller.ts) -/

/-- commentController.addComment. -/
def addComment (db : DB) (userId postId content : String) :
    Resp Comment × DB :=
  match findActiveUser db userId with
  | none => (err 403 "User account inactive", db)
  | some _ =>
    match db.posts.find? (fun p =>
        decide (p.id = postId ∧ p.isPublished = true)) with
    | none => (err 404 "Post not available for commenting", db)
    | some post =>
      match db.users.find? (fun u => decide (u.id = post.userId)) with
      | none => (err 500 "Post owner missing", db)
      | some postOwner =>
        if ¬(postOwner.status = AccountStatus.active) ∨
            ¬(postOwner.deletedAt = none) then
          (err 404 "Post not available for commenting", db)
        else
          let c : Comment := ⟨db.nextCommentId, userId, postId, content⟩
          (ok 201 "Comment added successfully" c,
           { db with comments := db.comments ++ [c],
                     nextCommentId := db.nextCommentId + 1 })

/-- commentController.getCommentsByPostId. -/
def getCommentsByPostId (db : DB) (postId : String)
    (limit offset : Option Nat) : Resp (List Comment) :=
  let postWithUser := db.posts.filterMap (fun p =>
    if p.id = postId ∧ p.isPublished = true then
      (db.users.find? (fun u => decide (u.id = p.userId ∧ isActive u))).map
        (fun u => (p, u))
    else none)
  if postWithUser.length = 0 then err 404 "Post not found or not available"
  else
    let rows := db.comments.filterMap (fun c =>
      if c.postId = postId ∧
          (db.users.find? (fun u =>
            decide (u.id = c.userId ∧ isActive u))).isSome then
        some c
      else none)
    let rows := match offset with
      | some o => rows.drop o
      | none => rows
    let rows := match limit with
      | some n => rows.take n
      | none => rows
    ok 200 "Comments fetched successfully" rows

/-- commentController.updateComment. -/
def updateComment (db : DB) (commentId : Nat) (userId : String)
    (content : String) (isAdmin : Bool) : Resp Comment × DB :=
  match db.comments.find? (fun c => decide (c.id = commentId)) with
  | none => (err 404 "Comment not found", db)
  | some comment =>
    match db.users.find? (fun u => decide (u.id = comment.userId)) with
    | none => (err 500 "Comment owner missing", db)
    | some owner =>
      if ¬(owner.status = AccountStatus.active) ∨ ¬(owner.deletedAt = none) then
        (err 403 "Comment owner account is inactive", db)
      else
        match db.posts.find? (fun p => decide (p.id = comment.postId)) with
        | none => (err 403 "Post not available", db)
        | some post =>
          match db.users.find? (fun u => decide (u.id = post.userId)) with
          | none => (err 500 "Post owner missing", db)
          | some postOwner =>
            if ¬(post.isPublished = true) ∨
                ¬(postOwner.status = AccountStatus.active) ∨
                ¬(postOwner.deletedAt = none) then
              (err 403 "Post not available", db)
            else if ¬(isAdmin = true) ∧ ¬(comment.userId = userId) then
              (err 401 "Unauthorized to update this comment", db)
            else
              let comment' : Comment := { comment with content := content }
              (ok 200 "Comment updated successfully" comment',
               { db with comments := db.comments.map (fun c =>
                   if c.id = commentId then comment' else c) })

/-- commentController.deleteComment. -/
def deleteComment (db : DB) (commentId : Nat) (userId : String)
    (isAdmin : Bool) : Resp Unit × DB :=
  match db.comments.find? (fun c => decide (c.id = commentId)) with
  | none => (err 404 "Comment not found", db)
  | some comment =>
    match db.users.find? (fun u => decide (u.id = comment.userId)) with
    | none => (err 500 "Comment owner missing", db)
    | some owner =>
      if ¬(owner.status = AccountStatus.active) ∨ ¬(owner.deletedAt = none) then
        (err 403 "Comment owner account is inactive", db)
      else if ¬(isAdmin = true) ∧ ¬(comment.userId = userId) then
        (err 401 "Unauthorized to delete this comment", db)
      else
        (okNoData 200 "Comment deleted successfully",
         { db with comments := db.comments.filter (fun c =>
             decide (¬(c.id = commentId))) })

/-! ## likeController (src/controllers/like-controller.ts) -/

/-- likeController.likePost. -/
def likePost (db : DB) (userId postId : String) : Resp Like × DB :=
  match findActiveUser db userId with
  | none => (err 403 "User account inactive", db)
  | some _ =>
    match db.posts.find? (fun p =>
        decide (p.id = postId ∧ p.isPublished = true)) with
    | none => (err 404 "Post not available for liking", db)
    | some post =>
      match db.users.find? (fun u => decide (u.id = post.userId)) with
      | none => (err 500 "Post owner missing", db)
      | some postOwner =>
        if ¬(postOwner.status = AccountStatus.active) ∨
            ¬(postOwner.deletedAt = none) then
          (err 404 "Post not available for liking", db)
        else if (db.likes.find? (fun l =>
            decide (l.userId = userId ∧ l.postId = postId))).isSome then
          (err 400 "Post already liked by user", db)
        else
          let lk : Like := ⟨userId, postId⟩
          -- the success body carries no message field
          (ok 200 "" lk, { db with likes := db.likes ++ [lk] })

/-- likeController.unlikePost: after the acting-user check it deletes
whatever matches the (userId, postId) pair — with no check that a like
existed — and reports success unconditionally. -/
def unlikePost (db : DB) (userId postId : String) : Resp Unit × DB :=
  match findActiveUser db userId with
  | none => (err 403 "User account inactive", db)
  | some _ =>
    (okNoData 200 "Post unliked successfully",
     { db with likes := db.likes.filter (fun l =>
         decide (¬(l.userId = userId ∧ l.postId = postId))) })

/-- likeController.getLikesByPostId. -/
def getLikesByPostId (db : DB) (postId : String) : Resp (List Like) :=
  match db.posts.find? (fun p =>
      decide (p.id = postId ∧ p.isPublished = true)) with
  | none => err 404 "Post not found or not available"
  | some post =>
    match db.users.find? (fun u => decide (u.id = post.userId)) with
    | none => err 500 "Post owner missing"
    | some postOwner =>
      if ¬(postOwner.status = AccountStatus.active) ∨
          ¬(postOwner.deletedAt = none) then
        err 404 "Post not found or not available"
      else
        ok 200 "" (db.likes.filterMap (fun l =>
          if l.postId = postId ∧
              (db.users.find? (fun u =>
                decide (u.id = l.userId ∧ isActive u))).isSome then
            some l
          else none))

/-- likeController.hasUserLikedPost: always a 200 whose data is the
conjunction of the row's existence with the liker's and the post
owner's activity and the post's published flag. -/
def hasUserLikedPost (db : DB) (userId postId : String) : Resp Bool :=
  let liked :=
    match db.likes.find? (fun l =>
        decide (l.userId = userId ∧ l.postId = postId)) with
    | none => false
    | some l =>
      match db.users.find? (fun u => decide (u.id = l.userId)),
            db.posts.find? (fun p => decide (p.id = l.postId)) with
      | some owner, some post =>
        match db.users.find? (fun u => decide (u.id = post.userId)) with
        | some postOwner =>
          decide (isActive owner) && post.isPublished &&
            decide (isActive postOwner)
        | none => false
      | _, _ => false
  ok 200 "" liked

/-- likeController.getLikeCount.  The findFirst fetches the post
owner's status and deletedAt columns, but — unlike every sibling
read — the code then tests only that the row exists: the fetched
columns are never consulted, and the count query has no join on the
likers' accounts, so likes owned by gone users are counted too. -/
def getLikeCount (db : DB) (postId : String) : Resp Nat :=
  match db.posts.find? (fun p =>
      decide (p.id = postId ∧ p.isPublished = true)) with
  | none => err 404 "Post not found or not available"
  | some _ =>
    ok 200 "" (db.likes.filter (fun l => decide (l.postId = postId))).length

/-! ## categoryController (src/controllers/category-controller.ts)

Every mutation starts with `await verifyAdmin(adminId)` inside a
try/catch whose catch returns 403. -/

/-- categoryController.createCategory. -/
def createCategory (db : DB) (adminId name : String)
    (description : Option String) : Resp Category × DB :=
  if verifyAdminOk db adminId then
    let slug := generateSlug name (db.categories.map Category.slug)
    let cat : Category := ⟨db.nextCategoryId, name, slug, description⟩
    (ok 201 "Category created successfully" cat,
     { db with categories := db.categories ++ [cat],
               nextCategoryId := db.nextCategoryId + 1 })
  else (err 403 "Unauthorized: Admin privileges required", db)

/-- categoryController.updateCategory. -/
def updateCategory (db : DB) (adminId : String) (categoryId : Nat)
    (name : Option String) (description : Option String) :
    Resp Category × DB :=
  if verifyAdminOk db adminId then
    let newSlug : Option String := match name with
      | some n =>
        if n ≠ "" then
          let current := db.categories.find? (fun c =>
            decide (c.id = categoryId))
          some (generateSlug n ((db.categories.map Category.slug).filter
            (fun s => decide (¬(some s = current.map Category.slug)))))
        else none
      | none => none
    let categories' := db.categories.map (fun c =>
      if c.id = categoryId then
        { c with
          name := name.getD c.name,
          description := match description with
            | some d => some d
            | none => c.description,
          slug := newSlug.getD c.slug }
      else c)
    (⟨200, "success", "Category updated successfully",
      categories'.find? (fun c => decide (c.id = categoryId))⟩,
     { db with categories := categories' })
  else (err 403 "Unauthorized: Admin privileges required", db)

/-- categoryController.safeDeleteCategory. -/
def safeDeleteCategory (db : DB) (adminId : String) (categoryId : Nat) :
    Resp Unit × DB :=
  if verifyAdminOk db adminId then
    if (db.categories.find? (fun c => decide (c.id = categoryId))).isNone then
      (err 404 "Category not found", db)
    else if (db.posts.find? (fun p =>
        decide (p.categoryId = some categoryId))).isSome then
      (err 400 "Cannot delete category - it\x27s still being used by posts", db)
    else
      (okNoData 200 "Category deleted successfully",
       { db with categories := db.categories.filter (fun c =>
           decide (¬(c.id = categoryId))) })
  else (err 403 "Unauthorized: Admin privileges required", db)

/-! ## AuthService (src/services/auth-service.ts) -/

/-- The findFirst of AuthService.login: the first user whose email or
username equals the identifier. -/
def findByIdentifier (db : DB) (identifier : String) : Option User :=
  db.users.find? (fun u =>
    decide (u.email = identifier ∨ u.username = identifier))

/-- AuthService.login.  bcrypt comparison and JWT signing are external
collaborators and enter the embedding as function parameters; the
signed token payload is (user.id, user.email). -/
def login (compare : String → String → Bool)
    (sign : String → String → String) (db : DB)
    (identifier password : String) : Option String :=
  match findByIdentifier db identifier with
  | none => none
  | some user =>
    if user.status = AccountStatus.deleted then none
    else if compare password user.hashedPassword then
      some (sign user.id user.email)
    else none

/-! ## Predicates used by the claims -/

/-- The lookup condition of getPostByIdOrSlug: by id when the
identifier has uuid length, by slug otherwise. -/
def matchesIdentifier (identifier : String) (p : Post) : Prop :=
  if identifier.length = 36 then p.id = identifier else p.slug = identifier

instance (identifier : String) (p : Post) :
    Decidable (matchesIdentifier identifier p) := by
  unfold matchesIdentifier
  infer_instance

/-- Every user row carrying this author id fails the active-account
condition (the author is suspended, deleted, or soft-deleted). -/
def ownerGone (db : DB) (ownerId : String) : Prop :=
  ∀ u ∈ db.users, u.id = ownerId → ¬isActive u

instance (db : DB) (ownerId : String) : Decidable (ownerGone db ownerId) := by
  unfold ownerGone
  infer_instance

/-- The author's account row exists but is suspended, deleted, or
soft-deleted. -/
def ownerPresentGone (db : DB) (ownerId : String) : Prop :=
  (∃ v ∈ db.users, v.id = ownerId) ∧ ownerGone db ownerId

instance (db : DB) (ownerId : String) :
    Decidable (ownerPresentGone db ownerId) := by
  unfold ownerPresentGone
  infer_instance

/-! ## Concrete fixtures -/

def userAlice : User :=
  ⟨"u-alice", "alice", "alice@example.com", "h1",
   AccountStatus.active, UserRole.user, none⟩

def userBob : User :=
  ⟨"u-bob", "bob", "bob@example.com", "h2",
   AccountStatus.active, UserRole.user, none⟩

def userAdmin : User :=
  ⟨"u-admin", "root", "root@example.com", "h3",
   AccountStatus.active, UserRole.admin, none⟩

def userFrozenAdmin : User :=
  ⟨"u-frozen", "frozen", "frozen@example.com", "h4",
   AccountStatus.suspended, UserRole.admin, none⟩

def userSam : User :=
  ⟨"u-sam", "sam", "sam@example.com", "h5",
   AccountStatus.suspended, UserRole.user, none⟩

def userGone : User :=
  ⟨"u-gone", "gone", "gone@example.com", "h6",
   AccountStatus.deleted, UserRole.user, some 5⟩

def postDraft : Post :=
  ⟨"p-draft", "u-alice", none, "Draft", "draft", "text", none, false, none⟩

def postPub : Post :=
  ⟨"p-pub", "u-alice", none, "Pub", "pub", "text", none, true, some 1⟩

def postOfGone : Post :=
  ⟨"p-gone", "u-gone", none, "Gone", "gone", "text", none, true, some 2⟩

def commentOne : Comment := ⟨1, "u-alice", "p-pub", "hi"⟩

def commentOfGone : Comment := ⟨2, "u-gone", "p-pub", "yo"⟩

def exDB : DB :=
  ⟨[userAlice, userBob, userAdmin, userFrozenAdmin, userSam, userGone],
   [postDraft, postPub, postOfGone],
   [commentOne, commentOfGone],
   [⟨"u-alice", "p-pub"⟩, ⟨"u-gone", "p-pub"⟩],
   [], 3, 1⟩

theorem toDigitsCore_succ (fuel n : Nat) (ds : List Char) :
    Nat.toDigitsCore 10 (fuel + 1) n ds =
      if n / 10 = 0 then Nat.digitChar (n % 10) :: ds
      else Nat.toDigitsCore 10 fuel (n / 10) (Nat.digitChar (n % 10) :: ds) := by
  simp [Nat.toDigitsCore]

theorem toDigitsCore_eq (n : Nat) : ∀ (fuel : Nat) (ds : List Char), n < fuel →
    Nat.toDigitsCore 10 fuel n ds = reprDigits n ++ ds := by
  induction n using Nat.strong_induction_on with
  | _ n ih =>
    intro fuel ds hlt
    match fuel with
    | fuel + 1 =>
      rw [toDigitsCore_succ]
      by_cases h0 : n / 10 = 0
      · simp only [h0, if_true, reprDigits]
        rw [toDigitsCore_succ]
        simp [h0]
      · have hq : n / 10 < n := Nat.div_lt_self (by omega) (by omega)
        simp only [h0, if_false, reprDigits]
        rw [toDigitsCore_succ]
        simp only [h0, if_false]
        rw [ih (n / 10) hq fuel _ (by omega), ih (n / 10) hq n _ (by omega)]
        simp

theorem reprDigits_unfold (n : Nat) :
    reprDigits n = if n / 10 = 0 then [Nat.digitChar (n % 10)]
      else reprDigits (n / 10) ++ [Nat.digitChar (n % 10)] := by
  by_cases h0 : n / 10 = 0
  · simp only [reprDigits, toDigitsCore_succ, h0, if_true]
  · have hq : n / 10 < n := Nat.div_lt_self (by omega) (by omega)
    simp only [reprDigits, toDigitsCore_succ, h0, if_false]
    rw [toDigitsCore_eq (n / 10) n _ (by omega)]
    rfl

theorem reprDigits_ne_nil (n : Nat) : reprDigits n ≠ [] := by
  rw [reprDigits_unfold]
  split <;> simp

theorem digitChar_inj : ∀ a, a < 10 → ∀ b, b < 10 →
    Nat.digitChar a = Nat.digitChar b → a = b := by decide

theorem digitChar_code : ∀ a, a < 10 →
    48 ≤ (Nat.digitChar a).toNat ∧ (Nat.digitChar a).toNat ≤ 57 := by decide

theorem reprDigits_inj : ∀ n m : Nat, reprDigits n = reprDigits m → n = m := by
  intro n
  induction n using Nat.strong_induction_on with
  | _ n ih =>
    intro m h
    rw [reprDigits_unfold n, reprDigits_unfold m] at h
    by_cases hn : n / 10 = 0 <;> by_cases hm : m / 10 = 0
    · simp only [hn, hm, if_true, List.cons.injEq] at h
      have := digitChar_inj _ (Nat.mod_lt _ (by omega)) _ (Nat.mod_lt _ (by omega)) h.1
      omega
    · exfalso
      simp only [hn, hm, if_true, if_false] at h
      have hlen := congrArg List.length h
      simp only [List.length_append, List.length_singleton, List.length_cons,
        List.length_nil] at hlen
      exact reprDigits_ne_nil (m / 10) (List.length_eq_zero.mp (by omega))
    · exfalso
      simp only [hn, hm, if_true, if_false] at h
      have hlen := congrArg List.length h
      simp only [List.length_append, List.length_singleton, List.length_cons,
        List.length_nil] at hlen
      exact reprDigits_ne_nil (n / 10) (List.length_eq_zero.mp (by omega))
    · simp only [hn, hm, if_false] at h
      obtain ⟨h1, h2⟩ := List.append_inj' h (by simp)
      have hq : n / 10 < n := Nat.div_lt_self (by omega) (by omega)
      have hdiv := ih (n / 10) hq (m / 10) h1
      have hmod := digitChar_inj _ (Nat.mod_lt _ (by omega)) _ (Nat.mod_lt _ (by omega))
        (by simpa using h2)
      omega

theorem repr_data (n : Nat) : (Nat.repr n).data = reprDigits n := rfl

theorem repr_inj {n m : Nat} (h : Nat.repr n = Nat.repr m) : n = m :=
  reprDigits_inj n m (by rw [← repr_data, ← repr_data, h])

theorem repr_digits_only (n : Nat) :
    ∀ c ∈ (Nat.repr n).data, 48 ≤ c.toNat ∧ c.toNat ≤ 57 := by
  rw [repr_data]
  induction n using Nat.strong_induction_on with
  | _ n ih =>
    intro c hc
    rw [reprDigits_unfold] at hc
    by_cases h0 : n / 10 = 0
    · simp only [h0, if_true, List.mem_singleton] at hc
      subst hc
      exact digitChar_code _ (Nat.mod_lt _ (by omega))
    · have hq : n / 10 < n := Nat.div_lt_self (by omega) (by omega)
      simp only [h0, if_false, List.mem_append, List.mem_singleton] at hc
      rcases hc with hc | hc
      · exact ih (n / 10) hq c hc
      · subst hc
        exact digitChar_code _ (Nat.mod_lt _ (by omega))

/-! ## The candidate strings of the collision loop -/

theorem string_ext {s t : String} (h : s.data = t.data) : s = t := by
  cases s; cases t; exact congrArg String.mk h

theorem numbered_data (slug : String) (i : Nat) :
    (numbered slug i).data = slug.data ++ '-' :: (Nat.repr i).data := by
  simp [numbered, String.data_append]

theorem numbered_inj (slug : String) {i j : Nat}
    (h : numbered slug i = numbered slug j) : i = j := by
  have h' := congrArg String.data h
  rw [numbered_data, numbered_data] at h'
  have h'' := List.append_cancel_left h'
  exact repr_inj (string_ext (by simpa using h''))

theorem numbered_ne_base (slug : String) (i : Nat) : numbered slug i ≠ slug := by
  intro h
  have h' := congrArg String.length h
  simp only [numbered, String.length_append] at h'
  have : String.length "-" = 1 := rfl
  omega

theorem candAux_shift (slug uniqueSlug : String) (counter : Nat) (k : Nat) :
    candAux slug (numbered slug counter) (counter + 1) k =
      candAux slug uniqueSlug counter (k + 1) := by
  match k with
  | 0 => simp [candAux]
  | k + 1 =>
    simp only [candAux]
    congr 1
    omega

theorem slugLoop_not_mem (slug : String) (ex : List String) :
    ∀ (fuel : Nat) (u : String) (counter : Nat),
      (∃ k < fuel, candAux slug u counter k ∉ ex) →
      slugLoop slug ex u counter fuel ∉ ex := by
  intro fuel
  induction fuel with
  | zero => intro u counter ⟨k, hk, _⟩; omega
  | succ fuel ih =>
    intro u counter ⟨k, hk, hmem⟩
    by_cases hu : u ∈ ex
    · simp only [slugLoop, hu, if_true]
      apply ih
      match k with
      | 0 => exact absurd hu (by simpa [candAux] using hmem)
      | k + 1 =>
        refine ⟨k, by omega, ?_⟩
        show candAux slug (numbered slug counter) (counter + 1) k ∉ ex
        rw [candAux_shift slug u]
        exact hmem
    · simp only [slugLoop]
      rw [if_neg hu]
      exact hu

theorem cand_inj (slug : String) (counter : Nat) :
    Function.Injective (candAux slug slug counter) := by
  intro a b h
  match a, b with
  | 0, 0 => rfl
  | 0, k + 1 => exact absurd h.symm (numbered_ne_base slug _)
  | k + 1, 0 => exact absurd h (numbered_ne_base slug _)
  | a + 1, b + 1 =>
    have := numbered_inj slug h
    omega

theorem exists_fresh_candidate (slug : String) (ex : List String) :
    ∃ k < ex.length + 1, candAux slug slug 1 k ∉ ex := by
  by_contra hall
  push_neg at hall
  have hsub : (List.range (ex.length + 1)).map (candAux slug slug 1) ⊆ ex := by
    intro x hx
    simp only [List.mem_map, List.mem_range] at hx
    obtain ⟨k, hk, rfl⟩ := hx
    exact hall k hk
  have hnd : ((List.range (ex.length + 1)).map (candAux slug slug 1)).Nodup :=
    (List.nodup_range _).map (cand_inj slug 1)
  have hlen : ((List.range (ex.length + 1)).map (candAux slug slug 1)).length ≤ ex.length := by
    calc ((List.range (ex.length + 1)).map (candAux slug slug 1)).length
        = ((List.range (ex.length + 1)).map (candAux slug slug 1)).toFinset.card :=
          (List.toFinset_card_of_nodup hnd).symm
      _ ≤ ex.toFinset.card := Finset.card_le_card (fun x hx => by
          simp only [List.mem_toFinset] at hx ⊢
          exact hsub hx)
      _ ≤ ex.length := ex.toFinset_card_le
  simp [List.length_map, List.length_range] at hlen

/-- C1, first half: the generated slug is never one of the existing
slugs. -/
theorem generateSlug_not_mem (title : String) (ex : List String) :
    generateSlug title ex ∉ ex := by
  unfold generateSlug
  exact slugLoop_not_mem _ ex _ _ 1 (exists_fresh_candidate _ ex)

/-! ## The character set of a generated slug -/

theorem slugify_data (title : String) :
    (slugify title).data = trimList (collapseRuns (fun c => c == '-') '-'
      (collapseRuns isSpaceChar '-'
        ((title.data.map lowerChar).filter
          (fun c => isWordChar c || isSpaceChar c || c == '-')))) := rfl

theorem mem_collapseRunsAux {p : Char → Bool} {r : Char} :
    ∀ (b : Bool) (l : List Char) (c : Char), c ∈ collapseRunsAux p r b l →
      c = r ∨ (c ∈ l ∧ p c = false) := by
  intro b l
  induction l generalizing b with
  | nil => intro c hc; simp [collapseRunsAux] at hc
  | cons d ds ih =>
    intro c hc
    simp only [collapseRunsAux] at hc
    by_cases hd : p d = true
    · rw [if_pos hd] at hc
      cases b with
      | true =>
        rcases ih true c (by simpa using hc) with h | ⟨h1, h2⟩
        · exact .inl h
        · exact .inr ⟨List.mem_cons_of_mem _ h1, h2⟩
      | false =>
        rcases List.mem_cons.mp (by simpa using hc) with rfl | h
        · exact .inl rfl
        · rcases ih true c h with h' | ⟨h1, h2⟩
          · exact .inl h'
          · exact .inr ⟨List.mem_cons_of_mem _ h1, h2⟩
    · rw [if_neg hd] at hc
      rcases List.mem_cons.mp hc with rfl | h
      · exact .inr ⟨List.mem_cons_self _ _, by simpa using hd⟩
      · rcases ih false c h with h' | ⟨h1, h2⟩
        · exact .inl h'
        · exact .inr ⟨List.mem_cons_of_mem _ h1, h2⟩

theorem mem_trimList {l : List Char} {c : Char} (h : c ∈ trimList l) : c ∈ l := by
  unfold trimList at h
  have h1 := List.mem_reverse.mp h
  have h2 := (List.dropWhile_sublist _).subset h1
  have h3 := List.mem_reverse.mp h2
  exact (List.dropWhile_sublist _).subset h3

theorem lowerChar_not_upper (c : Char) :
    ¬(65 ≤ (lowerChar c).toNat ∧ (lowerChar c).toNat ≤ 90) := by
  unfold lowerChar
  by_cases h : 65 ≤ c.toNat ∧ c.toNat ≤ 90
  · rw [if_pos (by simpa using h)]
    have key : (Char.ofNat (c.toNat + 32)).toNat = c.toNat + 32 := by
      have hv : (c.toNat + 32).isValidChar := Or.inl (by omega)
      rw [Char.ofNat, dif_pos hv]
      rfl
    rw [key]
    omega
  · rw [if_neg (by simpa using h)]
    omega

theorem slugify_chars (title : String) : ∀ c ∈ (slugify title).data, SlugChar c := by
  intro c hc
  rw [slugify_data] at hc
  have h2 := mem_trimList hc
  rcases mem_collapseRunsAux false _ c h2 with rfl | ⟨h3, _⟩
  · unfold SlugChar; right; right; right; rfl
  · rcases mem_collapseRunsAux false _ c h3 with rfl | ⟨h4, hns⟩
    · unfold SlugChar; right; right; right; rfl
    · obtain ⟨h6, h7⟩ := List.mem_filter.mp h4
      have hw : isWordChar c = true := by
        simp only [Bool.or_eq_true] at h7
        rcases h7 with (h | h) | h
        · exact h
        · rw [hns] at h; exact absurd h (by simp)
        · obtain ⟨d, _, rfl⟩ := List.mem_map.mp h6
          exact absurd h (by simp_all)
      obtain ⟨d, _, rfl⟩ := List.mem_map.mp h6
      have hnu := lowerChar_not_upper d
      simp only [isWordChar, Bool.or_eq_true, Bool.and_eq_true,
        decide_eq_true_eq, beq_iff_eq] at hw
      unfold SlugChar
      omega

theorem slugLoop_shape (slug : String) (ex : List String) :
    ∀ (fuel : Nat) (u : String) (counter : Nat),
      slugLoop slug ex u counter fuel = u ∨
      ∃ i, slugLoop slug ex u counter fuel = numbered slug i := by
  intro fuel
  induction fuel with
  | zero => intro u c; left; rfl
  | succ fuel ih =>
    intro u counter
    by_cases hu : u ∈ ex
    · simp only [slugLoop]
      rw [if_pos hu]
      rcases ih (slug ++ "-" ++ Nat.repr counter) (counter + 1) with h | ⟨i, h⟩
      · right; exact ⟨counter, h⟩
      · right; exact ⟨i, h⟩
    · simp only [slugLoop]
      rw [if_neg hu]
      left; rfl

/-- C1, second half: every character of a generated slug is a
lowercase word character or a hyphen. -/
theorem generateSlug_chars (title : String) (ex : List String) :
    ∀ c ∈ (generateSlug title ex).data, SlugChar c := by
  intro c hc
  have hc' : c ∈ (slugLoop (slugify title) ex (slugify title) 1 (ex.length + 1)).data := hc
  rcases slugLoop_shape (slugify title) ex (ex.length + 1) (slugify title) 1 with h | ⟨i, h⟩
  · rw [h] at hc'
    exact slugify_chars title c hc'
  · rw [h, numbered_data] at hc'
    rcases List.mem_append.mp hc' with h1 | h1
    · exact slugify_chars title c h1
    · rcases List.mem_cons.mp h1 with rfl | h2
      · unfold SlugChar; right; right; right; rfl
      · have := repr_digits_only i c h2
        unfold SlugChar; omega

/-! ## Re-slugifying: identity on well-formed slugs -/

theorem collapseRunsAux_id (p : Char → Bool) (r : Char) :
    ∀ l : List Char, (∀ c ∈ l, p c = false) → ∀ b, collapseRunsAux p r b l = l := by
  intro l
  induction l with
  | nil => intro _ b; rfl
  | cons d ds ih =>
    intro h b
    have hd : p d = false := h d (List.mem_cons_self _ _)
    simp only [collapseRunsAux]
    rw [if_neg (by simp [hd])]
    rw [ih (fun c hc => h c (List.mem_cons_of_mem _ hc)) false]

/-- No double hyphen anywhere: collapsing hyphen runs is the
identity. -/
theorem collapseRunsAux_hyphen_id :
    ∀ l : List Char, l.Chain' (fun a b => ¬(a = '-' ∧ b = '-')) →
      ∀ b : Bool, (b = true → l.head? ≠ some '-') →
      collapseRunsAux (fun c => c == '-') '-' b l = l := by
  intro l
  induction l with
  | nil => intro _ b _; rfl
  | cons d ds ih =>
    intro hch b hb
    by_cases hd : d = '-'
    · subst hd
      have hbf : b = false := by
        cases b
        · rfl
        · exact (hb rfl rfl).elim
      subst hbf
      simp only [collapseRunsAux]
      rw [if_pos (by simp)]
      rw [if_neg (by simp)]
      congr 1
      apply ih hch.tail true
      intro _
      match ds, hch with
      | [], _ => simp
      | e :: es, hch =>
        have hrel := (List.chain'_cons.mp hch).1
        simp only [List.head?_cons, ne_eq, Option.some.injEq]
        intro he
        exact hrel ⟨rfl, he⟩
    · simp only [collapseRunsAux]
      rw [if_neg (by simp [hd])]
      congr 1
      exact ih hch.tail false (by simp)

theorem dropWhile_id (p : Char → Bool) (l : List Char)
    (h : ∀ c ∈ l, p c = false) : l.dropWhile p = l := by
  cases l with
  | nil => rfl
  | cons d ds =>
    rw [List.dropWhile_cons, if_neg (by simp [h d (List.mem_cons_self _ _)])]

theorem trimList_id (l : List Char) (h : ∀ c ∈ l, isSpaceChar c = false) :
    trimList l = l := by
  unfold trimList
  rw [dropWhile_id _ _ h]
  rw [dropWhile_id _ _ (fun c hc => h c (List.mem_reverse.mp hc))]
  exact List.reverse_reverse l

theorem map_lowerChar_id (l : List Char)
    (h : ∀ c ∈ l, ¬(65 ≤ c.toNat ∧ c.toNat ≤ 90)) : l.map lowerChar = l := by
  induction l with
  | nil => rfl
  | cons d ds ih =>
    simp only [List.map_cons]
    rw [ih (fun c hc => h c (List.mem_cons_of_mem _ hc))]
    congr 1
    unfold lowerChar
    rw [if_neg (by simpa using h d (List.mem_cons_self _ _))]

theorem slugify_id (s : String) (hclass : ∀ c ∈ s.data, SlugChar c)
    (hchain : s.data.Chain' (fun a b => ¬(a = '-' ∧ b = '-'))) :
    slugify s = s := by
  apply string_ext
  rw [slugify_data]
  have hnu : ∀ c ∈ s.data, ¬(65 ≤ c.toNat ∧ c.toNat ≤ 90) := by
    intro c hc
    have := hclass c hc
    unfold SlugChar at this
    omega
  have hns : ∀ c ∈ s.data, isSpaceChar c = false := by
    intro c hc
    have hcl := hclass c hc
    unfold SlugChar at hcl
    cases hsp : isSpaceChar c
    · rfl
    · exfalso
      simp only [isSpaceChar, Bool.or_eq_true, Bool.and_eq_true,
        decide_eq_true_eq, beq_iff_eq] at hsp
      omega
  have hfil : ∀ c ∈ s.data, (isWordChar c || isSpaceChar c || c == '-') = true := by
    intro c hc
    have hcl := hclass c hc
    unfold SlugChar at hcl
    simp only [Bool.or_eq_true, beq_iff_eq]
    rcases hcl with h | h | h | h
    · left; left; simp only [isWordChar, Bool.or_eq_true, Bool.and_eq_true,
        decide_eq_true_eq, beq_iff_eq]; omega
    · left; left; simp only [isWordChar, Bool.or_eq_true, Bool.and_eq_true,
        decide_eq_true_eq, beq_iff_eq]; omega
    · left; left; simp only [isWordChar, Bool.or_eq_true, Bool.and_eq_true,
        decide_eq_true_eq, beq_iff_eq]; omega
    · right; exact Char.ext (UInt32.ext h)
  rw [map_lowerChar_id _ hnu]
  rw [List.filter_eq_self.mpr hfil]
  unfold collapseRuns
  rw [collapseRunsAux_id isSpaceChar '-' _ hns false]
  rw [collapseRunsAux_hyphen_id _ hchain false (by simp)]
  exact trimList_id _ hns

/-- Re-slugifying a well-formed slug (slug characters only, no double
hyphen) with an empty existing set is the identity. -/
theorem generateSlug_fixpoint (s : String) (hclass : ∀ c ∈ s.data, SlugChar c)
    (hchain : s.data.Chain' (fun a b => ¬(a = '-' ∧ b = '-'))) :
    generateSlug s [] = s := by
  show slugLoop (slugify s) [] (slugify s) 1 1 = s
  rw [slugify_id s hclass hchain]
  simp [slugLoop]


end PostHub

namespace PostHub

example : generateSlug "Hello World!" [] = "hello-world" := by decide

example : generateSlug "Hello World" ["hello-world"] = "hello-world-1" := by decide

example : generateSlug "  Multiple   Spaces--here  " [] = "-multiple-spaces-here-" := by decide

example : generateSlug "a " ["a-"] = "a--1" := by decide

example : generateSlug "a--1" [] = "a-1" := by decide

/-! ## Helper lemmas for the controller claims -/

theorem filter_idem {α : Type} (p : α → Bool) (l : List α) :
    (l.filter p).filter p = l.filter p := by
  induction l with
  | nil => rfl
  | cons a l ih => by_cases hp : p a <;> simp [List.filter_cons, hp, ih]

/-! ## Claim C1 -/

/-- C1: for every title and existing-slug set, the generated slug is
not a member of the set, and it contains only lowercase word
characters and hyphens. -/
theorem C1_generateSlug_fresh_and_charset (title : String)
    (existingSlugs : List String) :
    generateSlug title existingSlugs ∉ existingSlugs ∧
    ∀ c ∈ (generateSlug title existingSlugs).data, SlugChar c :=
  ⟨generateSlug_not_mem title existingSlugs,
   generateSlug_chars title existingSlugs⟩

theorem C1_generateSlug_fresh_and_charset_witness :
    generateSlug "Hello World" ["hello-world"] ∉ ["hello-world"] ∧
    SlugChar 'h' :=
  ⟨(C1_generateSlug_fresh_and_charset "Hello World" ["hello-world"]).1,
   (C1_generateSlug_fresh_and_charset "Hello World" ["hello-world"]).2 'h'
     (by decide)⟩

/-! ## Claim C7 -/

/-- C7: the code disagrees with the specification here.  trim() runs
after whitespace has been replaced by hyphens, so the leading and
trailing whitespace of the title becomes leading and trailing hyphens
that nothing removes: the result is "-multiple-spaces-here-", not the
specified "multiple-spaces-here". -/
theorem C7_edge_whitespace_becomes_hyphens :
    generateSlug "  Multiple   Spaces--here  " [] = "-multiple-spaces-here-" ∧
    generateSlug "  Multiple   Spaces--here  " [] ≠ "multiple-spaces-here" :=
  ⟨by decide, by decide⟩

/-! ## Claim C8 -/

/-- C8 counterexample: "a--1" is producible by the generator (from
title "a " against existing set consisting of "a-"), yet re-slugifying it
with an empty existing set collapses the double hyphen: the claim as
stated (every producible slug is a fixed point) is false. -/
theorem C8_counterexample :
    generateSlug "a " ["a-"] = "a--1" ∧ generateSlug "a--1" [] ≠ "a--1" :=
  ⟨by decide, by decide⟩

/-- C8 (amended): re-slugifying is the identity on strings made of
lowercase word characters and hyphens with no two adjacent hyphens.
(Suffixed candidates built on a base that ends in a hyphen, such as
"a--1", fall outside this set and are not fixed points.) -/
theorem C8_reslug_identity (s : String)
    (hclass : ∀ c ∈ s.data, SlugChar c)
    (hchain : s.data.Chain' (fun a b => ¬(a = '-' ∧ b = '-'))) :
    generateSlug s [] = s :=
  generateSlug_fixpoint s hclass hchain

theorem chain'_of_noDoubleHyphenB :
    ∀ l : List Char, noDoubleHyphenB l = true →
      l.Chain' (fun a b => ¬(a = '-' ∧ b = '-')) := by
  intro l
  induction l with
  | nil => intro _; simp
  | cons a t ih =>
    cases t with
    | nil => intro _; simp
    | cons b r =>
      intro h
      simp only [noDoubleHyphenB, Bool.and_eq_true, Bool.not_eq_true',
        Bool.and_eq_false_iff, beq_eq_false_iff_ne, ne_eq, beq_iff_eq] at h
      rw [List.chain'_cons]
      exact ⟨fun hc => by rcases h.1 with h1 | h1; exact h1 hc.1; exact h1 hc.2,
             ih h.2⟩

theorem C8_reslug_identity_witness :
    generateSlug "hello-world-1" [] = "hello-world-1" :=
  C8_reslug_identity "hello-world-1" (by decide)
    (chain'_of_noDoubleHyphenB _ (by decide))

/-! ## Claim C9 -/

/-- C9: for an active, non-soft-deleted acting user, unlikePost always
reports success — whether or not a like row existed — the stored likes
become the filter removing the (user, post) pair, and repeating the
operation does not change the store further. -/
theorem C9_unlikePost_success_idempotent (db : DB) (uid postId : String)
    (h : (findActiveUser db uid).isSome = true) :
    (unlikePost db uid postId).1.statusCode = 200 ∧
    (unlikePost db uid postId).1.status = "success" ∧
    (unlikePost db uid postId).2.likes =
      db.likes.filter (fun l => decide (¬(l.userId = uid ∧ l.postId = postId))) ∧
    (unlikePost (unlikePost db uid postId).2 uid postId).2 =
      (unlikePost db uid postId).2 := by
  cases hf : findActiveUser db uid with
  | none => rw [hf] at h; simp at h
  | some u =>
    have h2 : unlikePost db uid postId =
        (okNoData 200 "Post unliked successfully",
         { db with likes := db.likes.filter (fun l =>
             decide (¬(l.userId = uid ∧ l.postId = postId))) }) := by
      unfold unlikePost
      rw [hf]
    rw [h2]
    refine ⟨rfl, rfl, rfl, ?_⟩
    have hf2 : findActiveUser { db with likes := db.likes.filter (fun l =>
        decide (¬(l.userId = uid ∧ l.postId = postId))) } uid = some u := hf
    unfold unlikePost
    rw [hf2]
    simp [filter_idem]

theorem C9_unlikePost_success_idempotent_witness :
    (unlikePost exDB "u-alice" "p-pub").1.statusCode = 200 ∧
    (unlikePost exDB "u-alice" "p-pub").1.status = "success" ∧
    (unlikePost exDB "u-alice" "p-pub").2.likes =
      exDB.likes.filter (fun l =>
        decide (¬(l.userId = "u-alice" ∧ l.postId = "p-pub"))) ∧
    (unlikePost (unlikePost exDB "u-alice" "p-pub").2 "u-alice" "p-pub").2 =
      (unlikePost exDB "u-alice" "p-pub").2 :=
  C9_unlikePost_success_idempotent exDB "u-alice" "p-pub" (by decide)

/-! ## Claim C10 -/

/-- C10: login returns null exactly when no user matches the
identifier, the matched user is deleted, or the password comparison
fails; a suspended user with a correct password receives a signed
token. -/
theorem login_some_eq (compare : String → String → Bool)
    (sign : String → String → String) (db : DB)
    (identifier password : String) (u : User)
    (hf : findByIdentifier db identifier = some u) :
    login compare sign db identifier password =
      if u.status = AccountStatus.deleted then none
      else if compare password u.hashedPassword = true then
        some (sign u.id u.email)
      else none := by
  unfold login
  rw [hf]

theorem C10_login_none_iff_and_suspended_token
    (compare : String → String → Bool) (sign : String → String → String)
    (db : DB) (identifier password : String) :
    (login compare sign db identifier password = none ↔
      findByIdentifier db identifier = none ∨
      ∃ u, findByIdentifier db identifier = some u ∧
        (u.status = AccountStatus.deleted ∨
         compare password u.hashedPassword = false)) ∧
    (∀ u, findByIdentifier db identifier = some u →
      u.status = AccountStatus.suspended →
      compare password u.hashedPassword = true →
      login compare sign db identifier password = some (sign u.id u.email)) := by
  constructor
  · cases hf : findByIdentifier db identifier with
    | none => simp [login, hf]
    | some u =>
      rw [login_some_eq compare sign db identifier password u hf]
      by_cases hd : u.status = AccountStatus.deleted
      · rw [if_pos hd]
        simp [hd]
      · rw [if_neg hd]
        by_cases hcmp : compare password u.hashedPassword = true
        · rw [if_pos hcmp]
          simp [hd, hcmp]
        · rw [if_neg hcmp]
          constructor
          · intro _
            exact Or.inr ⟨u, rfl, Or.inr (by simpa using hcmp)⟩
          · intro _
            rfl
  · intro u hu hs hcmp
    rw [login_some_eq compare sign db identifier password u hu]
    rw [if_neg (by rw [hs]; decide)]
    rw [if_pos hcmp]

theorem C10_login_suspended_witness :
    login (fun _ _ => true) (fun a b => a ++ "|" ++ b) exDB "sam" "pw" =
      some (userSam.id ++ "|" ++ userSam.email) :=
  (C10_login_none_iff_and_suspended_token (fun _ _ => true)
    (fun a b => a ++ "|" ++ b) exDB "sam" "pw").2 userSam
    (by decide) (by decide) (by decide)

/-! ## More helper lemmas -/

theorem findActiveUser_eq_none {db : DB} {uid : String}
    (h : ∀ u ∈ db.users, u.id = uid → ¬isActive u) :
    findActiveUser db uid = none := by
  unfold findActiveUser
  rw [List.find?_eq_none]
  intro u hu
  simp only [decide_eq_true_eq, not_and]
  intro h1 h2
  exact h u hu h1 h2

theorem find?_active_eq_none {db : DB} {oid : String} (h : ownerGone db oid) :
    db.users.find? (fun u => decide (u.id = oid ∧ isActive u)) = none := by
  rw [List.find?_eq_none]
  intro u hu
  simp only [decide_eq_true_eq, not_and]
  intro h1 h2
  exact h u hu h1 h2

theorem verifyAdminOk_eq_false {db : DB} {uid : String}
    (h : ∀ u ∈ db.users, u.id = uid → ¬(u.status = AccountStatus.active)) :
    verifyAdminOk db uid = false := by
  unfold verifyAdminOk
  have hn : db.users.find? (fun u =>
      decide (u.id = uid ∧ u.role = UserRole.admin ∧
        u.status = AccountStatus.active)) = none := by
    rw [List.find?_eq_none]
    intro u hu
    simp only [decide_eq_true_eq, not_and]
    intro h1 _ h3
    exact h u hu h1 h3
  rw [hn]
  rfl

/-! ## Claim C2 -/

/-- C2: the code does not behave as claimed, and this run shows the
slip.  postDraft is unpublished and owned by the active non-admin
userAlice; the owner requesting it receives a 500 (verifyAdmin throws
for any requester who is not an active admin and the catch turns the
throw into "Failed to fetch post"), another authenticated non-admin
also receives 500 rather than a not-found, the anonymous requester
receives 403 rather than a not-found, and only an admin receives the
post. -/
theorem C2_draft_visibility_broken :
    (getPostByIdOrSlug exDB "draft" (some "u-alice")).statusCode = 500 ∧
    (getPostByIdOrSlug exDB "draft" (some "u-bob")).statusCode = 500 ∧
    (getPostByIdOrSlug exDB "draft" none).statusCode = 403 ∧
    (getPostByIdOrSlug exDB "draft" (some "u-admin")).statusCode = 200 ∧
    postDraft ∈ exDB.posts ∧ postDraft.slug = "draft" ∧
    postDraft.isPublished = false ∧ postDraft.userId = userAlice.id ∧
    isActive userAlice ∧ userAlice.role = UserRole.user :=
  ⟨by decide, by decide, by decide, by decide, by decide, rfl, rfl, rfl,
   by decide, rfl⟩

/-! ## Claim C3 -/

theorem mem_of_mem_paginate {α : Type} (limit offset : Option Nat)
    (l : List α) (c : α)
    (hc : c ∈ (match limit with
      | some n => List.take n (match offset with
          | some o => List.drop o l
          | none => l)
      | none => match offset with
          | some o => List.drop o l
          | none => l)) : c ∈ l := by
  cases limit with
  | none =>
    cases offset with
    | none => exact hc
    | some o => exact List.drop_subset o l hc
  | some n =>
    cases offset with
    | none => exact List.take_subset n l hc
    | some o => exact List.drop_subset o l (List.take_subset n _ hc)

/-- The reads that do hide gone-author content, as the specification
describes: a post whose matching rows all have gone authors is a 404
for every requester (by id or slug); the comments read of such a post
is a 404; a comment whose author is gone never appears in a comments
read; the likes read of such a post is a 404; a like whose author is
gone never appears in a likes read; and hasUserLikedPost reports false
whenever the liker is gone.  (getLikeCount is the exception that
breaks the claim; see the C3 theorem below.) -/
theorem gone_author_reads_not_found (db : DB) :
    (∀ identifier rid,
      (∀ p ∈ db.posts, matchesIdentifier identifier p →
        ownerGone db p.userId) →
      (getPostByIdOrSlug db identifier rid).statusCode = 404) ∧
    (∀ postId limit offset,
      (∀ p ∈ db.posts, p.id = postId → ownerGone db p.userId) →
      (getCommentsByPostId db postId limit offset).statusCode = 404) ∧
    (∀ postId limit offset cs c,
      (getCommentsByPostId db postId limit offset).data = some cs →
      c ∈ cs → ¬ownerGone db c.userId) ∧
    (∀ postId,
      (∀ p ∈ db.posts, p.id = postId → ownerPresentGone db p.userId) →
      (getLikesByPostId db postId).statusCode = 404) ∧
    (∀ postId ls l,
      (getLikesByPostId db postId).data = some ls →
      l ∈ ls → ¬ownerGone db l.userId) ∧
    (∀ uid postId,
      ownerGone db uid →
      (hasUserLikedPost db uid postId).data = some false) := by
  refine ⟨?_, ?_, ?_, ?_, ?_, ?_⟩
  · intro identifier rid h
    have hrows : db.posts.filterMap (fun p =>
        if (if identifier.length = 36 then p.id = identifier
            else p.slug = identifier) then
          (db.users.find? (fun u => decide (u.id = p.userId ∧ isActive u))).map
            (fun u => (p, u))
        else none) = [] := by
      rw [List.filterMap_eq_nil_iff]
      intro p hp
      by_cases hm : (if identifier.length = 36 then p.id = identifier
          else p.slug = identifier)
      · rw [if_pos hm]
        rw [find?_active_eq_none (h p hp hm)]
        rfl
      · rw [if_neg hm]
    simp only [getPostByIdOrSlug, hrows]
    rfl
  · intro postId limit offset h
    have hrows : db.posts.filterMap (fun p =>
        if p.id = postId ∧ p.isPublished = true then
          (db.users.find? (fun u => decide (u.id = p.userId ∧ isActive u))).map
            (fun u => (p, u))
        else none) = [] := by
      rw [List.filterMap_eq_nil_iff]
      intro p hp
      by_cases hm : p.id = postId ∧ p.isPublished = true
      · rw [if_pos hm]
        rw [find?_active_eq_none (h p hp hm.1)]
        rfl
      · rw [if_neg hm]
    simp only [getCommentsByPostId, hrows]
    rfl
  · intro postId limit offset cs c hdata hc hog
    simp only [getCommentsByPostId, ok, err] at hdata
    by_cases hlen : (db.posts.filterMap (fun p =>
        if p.id = postId ∧ p.isPublished = true then
          (db.users.find? (fun u => decide (u.id = p.userId ∧ isActive u))).map
            (fun u => (p, u))
        else none)).length = 0
    · rw [if_pos hlen] at hdata
      exact Option.noConfusion hdata
    · rw [if_neg hlen] at hdata
      injection hdata with hval
      rw [← hval] at hc
      have hc3 := mem_of_mem_paginate limit offset _ c hc
      obtain ⟨a, ha, hga⟩ := List.mem_filterMap.mp hc3
      by_cases hcond : a.postId = postId ∧
          (db.users.find? (fun u =>
            decide (u.id = a.userId ∧ isActive u))).isSome
      · rw [if_pos hcond] at hga
        injection hga with hga
        subst hga
        obtain ⟨u, hu⟩ := Option.isSome_iff_exists.mp hcond.2
        have hmem := List.mem_of_find?_eq_some hu
        have hpred : u.id = a.userId ∧ isActive u := by
          have hp2 := List.find?_some hu
          simpa using hp2
        exact hog u hmem hpred.1 hpred.2
      · rw [if_neg hcond] at hga
        exact Option.noConfusion hga
  · intro postId h
    cases hfp : db.posts.find? (fun p =>
        decide (p.id = postId ∧ p.isPublished = true)) with
    | none =>
      simp only [getLikesByPostId, hfp]
      rfl
    | some p =>
      have hmem := List.mem_of_find?_eq_some hfp
      have hpred : p.id = postId ∧ p.isPublished = true := by
        have hp2 := List.find?_some hfp
        simpa using hp2
      obtain ⟨⟨v, hv, hvid⟩, hog⟩ := h p hmem hpred.1
      cases hfu : db.users.find? (fun u => decide (u.id = p.userId)) with
      | none =>
        exfalso
        rw [List.find?_eq_none] at hfu
        exact hfu v hv (decide_eq_true hvid)
      | some owner =>
        have homem := List.mem_of_find?_eq_some hfu
        have hoid : owner.id = p.userId := by
          have hp2 := List.find?_some hfu
          simpa using hp2
        have hnact : ¬isActive owner := hog owner homem hoid
        simp only [getLikesByPostId, hfp, hfu]
        rw [if_pos (by unfold isActive at hnact; exact not_and_or.mp hnact)]
        rfl
  · intro postId ls l hdata hl hog
    cases hfp : db.posts.find? (fun p =>
        decide (p.id = postId ∧ p.isPublished = true)) with
    | none =>
      simp only [getLikesByPostId, hfp, err] at hdata
      exact Option.noConfusion hdata
    | some p =>
      cases hfu : db.users.find? (fun u => decide (u.id = p.userId)) with
      | none =>
        simp only [getLikesByPostId, hfp, hfu, err] at hdata
        exact Option.noConfusion hdata
      | some postOwner =>
        simp only [getLikesByPostId, hfp, hfu, err, ok] at hdata
        by_cases hcond : ¬(postOwner.status = AccountStatus.active) ∨
            ¬(postOwner.deletedAt = none)
        · rw [if_pos hcond] at hdata
          exact Option.noConfusion hdata
        · rw [if_neg hcond] at hdata
          injection hdata with hval
          rw [← hval] at hl
          obtain ⟨a, ha, hga⟩ := List.mem_filterMap.mp hl
          by_cases hc2 : a.postId = postId ∧
              (db.users.find? (fun u =>
                decide (u.id = a.userId ∧ isActive u))).isSome
          · rw [if_pos hc2] at hga
            injection hga with hga
            subst hga
            obtain ⟨u, hu⟩ := Option.isSome_iff_exists.mp hc2.2
            have hmem := List.mem_of_find?_eq_some hu
            have hpred : u.id = a.userId ∧ isActive u := by
              have hp2 := List.find?_some hu
              simpa using hp2
            exact hog u hmem hpred.1 hpred.2
          · rw [if_neg hc2] at hga
            exact Option.noConfusion hga
  · intro uid postId hog
    simp only [hasUserLikedPost, ok]
    refine congrArg some ?_
    cases hfl : db.likes.find? (fun l =>
        decide (l.userId = uid ∧ l.postId = postId)) with
    | none => rfl
    | some l =>
      have hlpred : l.userId = uid ∧ l.postId = postId := by
        have hp2 := List.find?_some hfl
        simpa using hp2
      cases hfo : db.users.find? (fun u => decide (u.id = l.userId)) with
      | none =>
        cases hfp : db.posts.find? (fun p => decide (p.id = l.postId)) <;>
          simp only [hfo, hfp]
      | some owner =>
        have homem := List.mem_of_find?_eq_some hfo
        have hoid : owner.id = l.userId := by
          have hp2 := List.find?_some hfo
          simpa using hp2
        have hnact : ¬isActive owner := hog owner homem (hoid.trans hlpred.1)
        have hdf : decide (isActive owner) = false := decide_eq_false hnact
        cases hfp : db.posts.find? (fun p => decide (p.id = l.postId)) with
        | none => simp only [hfo, hfp]
        | some post =>
          cases hfpo : db.users.find? (fun u => decide (u.id = post.userId)) with
          | none => simp only [hfo, hfp, hfpo]
          | some postOwner => simp [hfo, hfp, hfpo, hdf]

theorem gone_author_reads_not_found_example :
    (getPostByIdOrSlug exDB "gone" none).statusCode = 404 ∧
    (getCommentsByPostId exDB "p-gone" none none).statusCode = 404 ∧
    (getLikesByPostId exDB "p-gone").statusCode = 404 ∧
    (hasUserLikedPost exDB "u-gone" "p-pub").data = some false := by
  have h := gone_author_reads_not_found exDB
  exact ⟨h.1 "gone" none (by decide),
         h.2.1 "p-gone" none none (by decide),
         h.2.2.2.1 "p-gone" (by decide),
         h.2.2.2.2.2 "u-gone" "p-pub" (by decide)⟩

/-- C3: the code does not satisfy the claim.  getLikeCount is a read
operation on likes, and postOfGone is a published post whose author
userGone is deleted and soft-deleted; yet getLikeCount answers 200
"success" with a count for it instead of a not-found, because the
owner columns its query fetches are never checked (every sibling read
performs exactly that check).  Its count also includes the like that
the gone user userGone placed on the live post postPub. -/
theorem C3_getLikeCount_ignores_gone_author :
    userGone.status = AccountStatus.deleted ∧ userGone.deletedAt ≠ none ∧
    postOfGone ∈ exDB.posts ∧ postOfGone.id = "p-gone" ∧
    postOfGone.userId = userGone.id ∧ postOfGone.isPublished = true ∧
    (getLikeCount exDB "p-gone").statusCode = 200 ∧
    (getLikeCount exDB "p-gone").status = "success" ∧
    (getLikeCount exDB "p-gone").data = some 0 ∧
    Like.mk "u-gone" "p-pub" ∈ exDB.likes ∧
    (getLikeCount exDB "p-pub").data = some 2 :=
  ⟨rfl, by decide, by decide, rfl, rfl, rfl, by decide, by decide,
   by decide, by decide, by decide⟩

/-! ## Claim C4 -/

/-- C4 counterexample: the claim fails as stated.  userFrozenAdmin is
suspended, yet deleting someone else's comment with the admin flag
(which the comment routes derive from the role alone, with no status
check anywhere on the acting account) succeeds and changes the
store. -/
theorem C4_counterexample_suspended_admin_deletes :
    userFrozenAdmin ∈ exDB.users ∧
    userFrozenAdmin.status = AccountStatus.suspended ∧
    userFrozenAdmin.role = UserRole.admin ∧
    (deleteComment exDB 1 "u-frozen" true).1.statusCode = 200 ∧
    (deleteComment exDB 1 "u-frozen" true).2 ≠ exDB ∧
    (deleteComment exDB 1 "u-frozen" true).2.comments =
      exDB.comments.filter (fun c => decide (¬(c.id = 1))) :=
  ⟨by decide, rfl, rfl, by decide, by decide, by decide⟩

/-- C4 (amended): an acting user whose account is not active or is
soft-deleted is rejected, with the store unchanged, by every write
that checks the actor: post create / update / delete, comment add,
comment update / delete without the admin flag, like and unlike.
Comment update / delete with the admin flag never check the acting
account (the counterexample), and verifyAdmin checks only the status,
so the category mutations reject every actor whose status is not
active but not a soft-deleted actor whose status field is still
active. -/
theorem C4_inactive_actor_writes_rejected (db : DB) (uid : String)
    (h : ∀ u ∈ db.users, u.id = uid → ¬isActive u) :
    (∀ data freshId now,
      (createPost db uid data freshId now).1.statusCode ≥ 400 ∧
      (createPost db uid data freshId now).2 = db) ∧
    (∀ postId updates now,
      (updatePost db postId uid updates now).1.statusCode ≥ 400 ∧
      (updatePost db postId uid updates now).2 = db) ∧
    (∀ postId,
      (deletePost db postId uid).1.statusCode ≥ 400 ∧
      (deletePost db postId uid).2 = db) ∧
    (∀ postId content,
      (addComment db uid postId content).1.statusCode ≥ 400 ∧
      (addComment db uid postId content).2 = db) ∧
    (∀ cid content,
      (updateComment db cid uid content false).1.statusCode ≥ 400 ∧
      (updateComment db cid uid content false).2 = db) ∧
    (∀ cid,
      (deleteComment db cid uid false).1.statusCode ≥ 400 ∧
      (deleteComment db cid uid false).2 = db) ∧
    (∀ postId,
      (likePost db uid postId).1.statusCode ≥ 400 ∧
      (likePost db uid postId).2 = db) ∧
    (∀ postId,
      (unlikePost db uid postId).1.statusCode ≥ 400 ∧
      (unlikePost db uid postId).2 = db) ∧
    ((∀ u ∈ db.users, u.id = uid → ¬(u.status = AccountStatus.active)) →
      (∀ nm desc,
        (createCategory db uid nm desc).1.statusCode ≥ 400 ∧
        (createCategory db uid nm desc).2 = db) ∧
      (∀ cid nm desc,
        (updateCategory db uid cid nm desc).1.statusCode ≥ 400 ∧
        (updateCategory db uid cid nm desc).2 = db) ∧
      (∀ cid,
        (safeDeleteCategory db uid cid).1.statusCode ≥ 400 ∧
        (safeDeleteCategory db uid cid).2 = db)) := by
  have hfa : findActiveUser db uid = none := findActiveUser_eq_none h
  refine ⟨?_, ?_, ?_, ?_, ?_, ?_, ?_, ?_, ?_⟩
  · intro data freshId now
    simp only [createPost, hfa]
    exact ⟨of_decide_eq_true rfl, by trivial⟩
  · intro postId updates now
    cases hp : db.posts.find? (fun p => decide (p.id = postId)) with
    | none =>
      simp only [updatePost, hp]
      exact ⟨of_decide_eq_true rfl, by trivial⟩
    | some post =>
      cases ho : db.users.find? (fun u => decide (u.id = post.userId)) with
      | none =>
        simp only [updatePost, hp, ho]
        exact ⟨of_decide_eq_true rfl, by trivial⟩
      | some owner =>
        by_cases hio : ¬(owner.status = AccountStatus.active) ∨
            ¬(owner.deletedAt = none)
        · simp only [updatePost, hp, ho]
          rw [if_pos hio]
          exact ⟨of_decide_eq_true rfl, by trivial⟩
        · have hne : ¬(post.userId = uid) := by
            intro he
            apply hio
            have hmem := List.mem_of_find?_eq_some ho
            have hid : owner.id = post.userId := by
              have hpred := List.find?_some ho
              simpa using hpred
            have hact : ¬isActive owner := h owner hmem (by rw [hid, he])
            unfold isActive at hact
            exact not_and_or.mp hact
          simp only [updatePost, hp, ho]
          rw [if_neg hio, if_pos hne]
          exact ⟨of_decide_eq_true rfl, by trivial⟩
  · intro postId
    cases hp : db.posts.find? (fun p => decide (p.id = postId)) with
    | none =>
      simp only [deletePost, hp]
      exact ⟨of_decide_eq_true rfl, by trivial⟩
    | some post =>
      cases ho : db.users.find? (fun u => decide (u.id = post.userId)) with
      | none =>
        simp only [deletePost, hp, ho]
        exact ⟨of_decide_eq_true rfl, by trivial⟩
      | some owner =>
        by_cases hio : ¬(owner.status = AccountStatus.active) ∨
            ¬(owner.deletedAt = none)
        · simp only [deletePost, hp, ho]
          rw [if_pos hio]
          exact ⟨of_decide_eq_true rfl, by trivial⟩
        · have hne : ¬(post.userId = uid) := by
            intro he
            apply hio
            have hmem := List.mem_of_find?_eq_some ho
            have hid : owner.id = post.userId := by
              have hpred := List.find?_some ho
              simpa using hpred
            have hact : ¬isActive owner := h owner hmem (by rw [hid, he])
            unfold isActive at hact
            exact not_and_or.mp hact
          simp only [deletePost, hp, ho]
          rw [if_neg hio, if_pos hne]
          exact ⟨of_decide_eq_true rfl, by trivial⟩
  · intro postId content
    simp only [addComment, hfa]
    exact ⟨of_decide_eq_true rfl, by trivial⟩
  · intro cid content
    cases hc : db.comments.find? (fun c => decide (c.id = cid)) with
    | none =>
      simp only [updateComment, hc]
      exact ⟨of_decide_eq_true rfl, by trivial⟩
    | some comment =>
      cases ho : db.users.find? (fun u => decide (u.id = comment.userId)) with
      | none =>
        simp only [updateComment, hc, ho]
        exact ⟨of_decide_eq_true rfl, by trivial⟩
      | some owner =>
        by_cases hio : ¬(owner.status = AccountStatus.active) ∨
            ¬(owner.deletedAt = none)
        · simp only [updateComment, hc, ho]
          rw [if_pos hio]
          exact ⟨of_decide_eq_true rfl, by trivial⟩
        · have hne : ¬(comment.userId = uid) := by
            intro he
            apply hio
            have hmem := List.mem_of_find?_eq_some ho
            have hid : owner.id = comment.userId := by
              have hpred := List.find?_some ho
              simpa using hpred
            have hact : ¬isActive owner := h owner hmem (by rw [hid, he])
            unfold isActive at hact
            exact not_and_or.mp hact
          cases hp : db.posts.find? (fun p => decide (p.id = comment.postId)) with
          | none =>
            simp only [updateComment, hc, ho, hp]
            rw [if_neg hio]
            exact ⟨of_decide_eq_true rfl, by trivial⟩
          | some post =>
            cases hpo : db.users.find? (fun u => decide (u.id = post.userId)) with
            | none =>
              simp only [updateComment, hc, ho, hp, hpo]
              rw [if_neg hio]
              exact ⟨of_decide_eq_true rfl, by trivial⟩
            | some postOwner =>
              by_cases hpa : ¬(post.isPublished = true) ∨
                  ¬(postOwner.status = AccountStatus.active) ∨
                  ¬(postOwner.deletedAt = none)
              · simp only [updateComment, hc, ho, hp, hpo]
                rw [if_neg hio, if_pos hpa]
                exact ⟨of_decide_eq_true rfl, by trivial⟩
              · simp only [updateComment, hc, ho, hp, hpo]
                rw [if_neg hio, if_neg hpa, if_pos ⟨by simp, hne⟩]
                exact ⟨of_decide_eq_true rfl, by trivial⟩
  · intro cid
    cases hc : db.comments.find? (fun c => decide (c.id = cid)) with
    | none =>
      simp only [deleteComment, hc]
      exact ⟨of_decide_eq_true rfl, by trivial⟩
    | some comment =>
      cases ho : db.users.find? (fun u => decide (u.id = comment.userId)) with
      | none =>
        simp only [deleteComment, hc, ho]
        exact ⟨of_decide_eq_true rfl, by trivial⟩
      | some owner =>
        by_cases hio : ¬(owner.status = AccountStatus.active) ∨
            ¬(owner.deletedAt = none)
        · simp only [deleteComment, hc, ho]
          rw [if_pos hio]
          exact ⟨of_decide_eq_true rfl, by trivial⟩
        · have hne : ¬(comment.userId = uid) := by
            intro he
            apply hio
            have hmem := List.mem_of_find?_eq_some ho
            have hid : owner.id = comment.userId := by
              have hpred := List.find?_some ho
              simpa using hpred
            have hact : ¬isActive owner := h owner hmem (by rw [hid, he])
            unfold isActive at hact
            exact not_and_or.mp hact
          simp only [deleteComment, hc, ho]
          rw [if_neg hio, if_pos ⟨by simp, hne⟩]
          exact ⟨of_decide_eq_true rfl, by trivial⟩
  · intro postId
    simp only [likePost, hfa]
    exact ⟨of_decide_eq_true rfl, by trivial⟩
  · intro postId
    simp only [unlikePost, hfa]
    exact ⟨of_decide_eq_true rfl, by trivial⟩
  · intro h2
    have hva : verifyAdminOk db uid = false := verifyAdminOk_eq_false h2
    refine ⟨?_, ?_, ?_⟩
    · intro nm desc
      simp only [createCategory, hva]
      try exact ⟨of_decide_eq_true rfl, by trivial⟩
    · intro cid nm desc
      simp only [updateCategory, hva]
      try exact ⟨of_decide_eq_true rfl, by trivial⟩
    · intro cid
      simp only [safeDeleteCategory, hva]
      try exact ⟨of_decide_eq_true rfl, by trivial⟩

theorem C4_inactive_actor_writes_rejected_witness :
    (addComment exDB "u-sam" "p-pub" "x").1.statusCode ≥ 400 ∧
    (addComment exDB "u-sam" "p-pub" "x").2 = exDB ∧
    (createCategory exDB "u-sam" "Tech" none).1.statusCode ≥ 400 ∧
    (createCategory exDB "u-sam" "Tech" none).2 = exDB := by
  have h := C4_inactive_actor_writes_rejected exDB "u-sam" (by decide)
  exact ⟨(h.2.2.2.1 "p-pub" "x").1, (h.2.2.2.1 "p-pub" "x").2,
         ((h.2.2.2.2.2.2.2.2 (by decide)).1 "Tech" none).1,
         ((h.2.2.2.2.2.2.2.2 (by decide)).1 "Tech" none).2⟩

/-! ## Claim C5 -/

/-- C5 counterexample: the denial for a non-owner non-admin deleting a
comment is a 401 "Unauthorized" response, not the 403 forbidden the
claim states. -/
theorem C5_counterexample_401_not_403 :
    (deleteComment exDB 1 "u-bob" false).1.statusCode = 401 ∧
    ¬((deleteComment exDB 1 "u-bob" false).1.statusCode = 403) ∧
    commentOne ∈ exDB.comments ∧ commentOne.id = 1 ∧
    commentOne.userId = userAlice.id ∧ isActive userAlice ∧
    userBob ∈ exDB.users ∧ isActive userBob :=
  ⟨by decide, by decide, by decide, rfl, rfl, by decide, by decide, by decide⟩

/-- C5 (amended): for an existing comment whose owner is active and
not soft-deleted, deleteComment removes the comment and reports
success when the actor is the author or carries the admin flag, and
every other authenticated actor receives a 401 unauthorized error
(the code uses 401 here, not 403) with the store unchanged. -/
theorem C5_deleteComment_author_or_admin (db : DB) (cid : Nat)
    (uid : String) (isAdmin : Bool) (comment : Comment) (owner : User)
    (hc : db.comments.find? (fun c => decide (c.id = cid)) = some comment)
    (ho : db.users.find? (fun u => decide (u.id = comment.userId)) = some owner)
    (hact : isActive owner) :
    ((isAdmin = true ∨ uid = comment.userId) →
      (deleteComment db cid uid isAdmin).1.statusCode = 200 ∧
      (deleteComment db cid uid isAdmin).1.status = "success" ∧
      (deleteComment db cid uid isAdmin).2.comments =
        db.comments.filter (fun c => decide (¬(c.id = cid)))) ∧
    (isAdmin = false → uid ≠ comment.userId →
      (deleteComment db cid uid isAdmin).1.statusCode = 401 ∧
      (deleteComment db cid uid isAdmin).1.status = "error" ∧
      (deleteComment db cid uid isAdmin).2 = db) := by
  have hcondF : ¬(¬(owner.status = AccountStatus.active) ∨
      ¬(owner.deletedAt = none)) :=
    not_or.mpr ⟨not_not_intro hact.1, not_not_intro hact.2⟩
  constructor
  · intro hcase
    have hfalse : ¬(¬(isAdmin = true) ∧ ¬(comment.userId = uid)) := by
      rcases hcase with h | h
      · exact fun hh => hh.1 h
      · exact fun hh => hh.2 h.symm
    simp only [deleteComment, hc, ho]
    rw [if_neg hcondF, if_neg hfalse]
    exact ⟨rfl, rfl, rfl⟩
  · intro ha hne
    simp only [deleteComment, hc, ho]
    rw [if_neg hcondF, if_pos ⟨by simp [ha], fun hx => hne hx.symm⟩]
    exact ⟨rfl, rfl, rfl⟩

theorem C5_deleteComment_author_or_admin_witness :
    (deleteComment exDB 1 "u-alice" false).1.statusCode = 200 ∧
    (deleteComment exDB 1 "u-alice" false).1.status = "success" ∧
    (deleteComment exDB 1 "u-alice" false).2.comments =
      exDB.comments.filter (fun c => decide (¬(c.id = 1))) :=
  (C5_deleteComment_author_or_admin exDB 1 "u-alice" false commentOne
    userAlice (by decide) (by decide) (by decide)).1 (Or.inr rfl)

/-! ## Claim C6 -/

/-- C6: for an existing post whose owner is active and not
soft-deleted, updatePost and deletePost proceed (200) only for the
owning user; every other acting user — the functions never consult
the role, so admins included — receives 403 and the store is
unchanged. -/
theorem C6_post_mutation_owner_only (db : DB) (postId uid : String)
    (post : Post) (owner : User)
    (hp : db.posts.find? (fun p => decide (p.id = postId)) = some post)
    (ho : db.users.find? (fun u => decide (u.id = post.userId)) = some owner)
    (hact : isActive owner) :
    (post.userId = uid →
      (∀ updates now,
        (updatePost db postId uid updates now).1.statusCode = 200) ∧
      (deletePost db postId uid).1.statusCode = 200 ∧
      (deletePost db postId uid).2.posts =
        db.posts.filter (fun p => decide (¬(p.id = postId)))) ∧
    (¬(post.userId = uid) →
      (∀ updates now,
        (updatePost db postId uid updates now).1.statusCode = 403 ∧
        (updatePost db postId uid updates now).2 = db) ∧
      (deletePost db postId uid).1.statusCode = 403 ∧
      (deletePost db postId uid).2 = db) := by
  have hcondF : ¬(¬(owner.status = AccountStatus.active) ∨
      ¬(owner.deletedAt = none)) :=
    not_or.mpr ⟨not_not_intro hact.1, not_not_intro hact.2⟩
  constructor
  · intro hown
    refine ⟨?_, ?_, ?_⟩
    · intro updates now
      simp only [updatePost, hp, ho]
      rw [if_neg hcondF, if_neg (not_not_intro hown)]
      try rfl
    · simp only [deletePost, hp, ho]
      rw [if_neg hcondF, if_neg (not_not_intro hown)]
      try rfl
    · simp only [deletePost, hp, ho]
      rw [if_neg hcondF, if_neg (not_not_intro hown)]
      try rfl
  · intro hne
    refine ⟨?_, ?_, ?_⟩
    · intro updates now
      constructor
      · simp only [updatePost, hp, ho]
        rw [if_neg hcondF, if_pos hne]
        try rfl
      · simp only [updatePost, hp, ho]
        rw [if_neg hcondF, if_pos hne]
        try rfl
    · simp only [deletePost, hp, ho]
      rw [if_neg hcondF, if_pos hne]
      try rfl
    · simp only [deletePost, hp, ho]
      rw [if_neg hcondF, if_pos hne]
      try rfl

theorem C6_post_mutation_owner_only_witness :
    (updatePost exDB "p-draft" "u-alice" ⟨none, none, none, none, none⟩
      0).1.statusCode = 200 ∧
    (updatePost exDB "p-draft" "u-admin" ⟨none, none, none, none, none⟩
      0).1.statusCode = 403 ∧
    (updatePost exDB "p-draft" "u-admin" ⟨none, none, none, none, none⟩
      0).2 = exDB ∧
    (deletePost exDB "p-draft" "u-admin").1.statusCode = 403 ∧
    (deletePost exDB "p-draft" "u-admin").2 = exDB := by
  have h1 := C6_post_mutation_owner_only exDB "p-draft" "u-alice" postDraft
    userAlice (by decide) (by decide) (by decide)
  have h2 := C6_post_mutation_owner_only exDB "p-draft" "u-admin" postDraft
    userAlice (by decide) (by decide) (by decide)
  exact ⟨(h1.1 rfl).1 _ _, ((h2.2 (by decide)).1 _ _).1,
         ((h2.2 (by decide)).1 _ _).2, (h2.2 (by decide)).2.1,
         (h2.2 (by decide)).2.2⟩

end PostHub
